import Mathlib

/-!
Verification development for the ts-dump-restore / timescaledb-backup tool.

The tool wraps pg_dump / pg_dumpall / pg_restore around a TimescaleDB
database. This file gives a shallow embedding of its control flow:
external effects (subprocess runs, database queries, filesystem calls)
are supplied as explicit outcome values in environment structures, and
each Go function is translated into a Lean function over those
environments, mirroring the source's sequencing and error handling.
The theorems at the end settle stated properties of that control flow.
-/

/-- TsInfo holds information about the Timescale installation
(pkg/util: fields TsInfoVersion, TsVersion, TsSchema).  In Go,
`util.TsInfo{}` zero-initializes the fields to `0`, `""`, `""`. -/
structure TsInfo where
  TsInfoVersion : Int
  TsVersion : String
  TsSchema : String
deriving Repr, DecidableEq

/-- The Go zero value `util.TsInfo{}`. -/
def TsInfo.zero : TsInfo := ⟨0, "", ""⟩

/-- A JSON value, as far as the metadata file is concerned. -/
inductive JValue where
  | jnull
  | jbool (b : Bool)
  | jint (n : Int)
  | jstr (s : String)
  | jobj (fields : List (String × JValue))

/-- Field lookup in a JSON object (first binding wins, as in a decoded
JSON object with distinct keys). -/
def jlookup (k : String) : List (String × JValue) → Option JValue
  | [] => none
  | (k2, v) :: rest => if k = k2 then some v else jlookup k rest

/-- Modelled from the behaviour of Go's encoding/json for an `int` struct
field: an absent or null field keeps the zero value, a JSON number is
accepted, and any other JSON type is an unmarshalling error. -/
def decodeIntField (fields : List (String × JValue)) (k : String) : Except String Int :=
  match jlookup k fields with
  | none => Except.ok 0
  | some JValue.jnull => Except.ok 0
  | some (JValue.jint n) => Except.ok n
  | some _ => Except.error ("cannot unmarshal JSON value into field " ++ k ++ " of type int")

/-- Modelled from the behaviour of Go's encoding/json for a `string` struct
field: absent or null keeps `""`, a JSON string is accepted, any other
JSON type is an unmarshalling error. -/
def decodeStrField (fields : List (String × JValue)) (k : String) : Except String String :=
  match jlookup k fields with
  | none => Except.ok ""
  | some JValue.jnull => Except.ok ""
  | some (JValue.jstr s) => Except.ok s
  | some _ => Except.error ("cannot unmarshal JSON value into field " ++ k ++ " of type string")

/-- Decoding a JSON value into `util.TsInfo`, modelled from Go's
encoding/json semantics for this struct: the top level must be an
object; the three exported fields are looked up by name; unknown fields
are ignored; no constraint whatsoever is placed on the value of
`TsInfoVersion`. -/
def decodeTsInfo : JValue → Except String TsInfo
  | JValue.jobj fields =>
    match decodeIntField fields "TsInfoVersion",
          decodeStrField fields "TsVersion",
          decodeStrField fields "TsSchema" with
    | Except.ok n, Except.ok v, Except.ok s => Except.ok ⟨n, v, s⟩
    | Except.error e, _, _ => Except.error e
    | _, Except.error e, _ => Except.error e
    | _, _, Except.error e => Except.error e
  | _ => Except.error "cannot unmarshal JSON value into value of type util.TsInfo"

/-- Result of the one-row extension-introspection query
`SELECT e.extversion, n.nspname FROM pg_extension ...`:
either a row (version, schema), no rows (`pgx.ErrNoRows`), or a
database error. -/
inductive ExtQueryResult where
  | row (version : String) (schema : String)
  | noRows
  | dbError (e : String)

/-- Whether pattern `p` is a leading segment of `s` (character lists). -/
def leadsWith : List Char → List Char → Bool
  | [], _ => true
  | _ :: _, [] => false
  | p :: ps, c :: cs => p == c && leadsWith ps cs

/-- Whether `sub` occurs contiguously inside `s` (character lists);
models Go's `strings.Contains`. -/
def containsSub : List Char → List Char → Bool
  | [], sub => sub.isEmpty
  | c :: rest, sub => leadsWith sub (c :: rest) || containsSub rest sub

/-- Go's `strings.Contains(s, sub)`. -/
def strContains (s sub : String) : Bool := containsSub s.data sub.data

/-- writeAndFilterOutput (pkg/util): scan the input line by line; a line
containing any of the filter substrings is dropped; every other line is
written out, prefixed with a timestamp when `prependTime` is set.  The
stream is modelled as the list of its lines, and the timestamp text as
the parameter `stamp`. -/
def writeAndFilterOutput (stamp : String) (prependTime : Bool) (filters : List String) :
    List String → List String
  | [] => []
  | line :: rest =>
    let stringMatch := filters.any (fun filter => strContains line filter)
    if stringMatch then writeAndFilterOutput stamp prependTime filters rest
    else (if prependTime then stamp ++ line else line) ::
      writeAndFilterOutput stamp prependTime filters rest

/-- makeRestoreTOC (pkg/restore): run `pg_restore --list` on the dump
directory and write its listing through `writeAndFilterOutput` with
`prependTime = false` and the single filter
"COMMENT - EXTENSION timescaledb".  The listing produced by the wrapped
tool is modelled as the list of its lines. -/
def makeRestoreTOC (stamp : String) (listing : List String) : List String :=
  writeAndFilterOutput stamp false ["COMMENT - EXTENSION timescaledb"] listing

/-! ## Restore sequencer (pkg/restore, DoRestore and helpers) -/

/-- The four pg_restore passes DoRestore issues, in source order:
pre-data, data restricted to the `_timescaledb_catalog` and
`_timescaledb_config` schemas, data for everything else, post-data. -/
inductive RestorePhase where
  | preData
  | catalogData
  | otherData
  | postData
deriving Repr, DecidableEq

/-- The error label each pass's failure is wrapped with in DoRestore. -/
def phaseLabel : RestorePhase → String
  | RestorePhase.preData => "pg_restore run failed in pre-data section"
  | RestorePhase.catalogData => "pg_restore run failed while restoring _timescaledb_catalog"
  | RestorePhase.otherData => "pg_restore run failed while restoring user data"
  | RestorePhase.postData => "pg_restore run failed during post-data step"

/-- The order in which DoRestore's source text issues the passes. -/
def restorePassOrder : List RestorePhase :=
  [RestorePhase.preData, RestorePhase.catalogData, RestorePhase.otherData, RestorePhase.postData]

/-- Position of a pass in the source order. -/
def phaseIdx : RestorePhase → Nat
  | RestorePhase.preData => 0
  | RestorePhase.catalogData => 1
  | RestorePhase.otherData => 2
  | RestorePhase.postData => 3

/-- The four sequential `pg_restore` invocations of DoRestore, each
followed by `if err != nil return wrapped-error`.  `res` gives the
outcome of each invocation (`none` = exit 0).  Returns the passes that
were invoked, in order, and the error DoRestore would return. -/
def doRestorePasses (res : RestorePhase → Option String) :
    List RestorePhase × Option String :=
  match res RestorePhase.preData with
  | some e => ([RestorePhase.preData],
      some (phaseLabel RestorePhase.preData ++ ": " ++ e))
  | none =>
    match res RestorePhase.catalogData with
    | some e => ([RestorePhase.preData, RestorePhase.catalogData],
        some (phaseLabel RestorePhase.catalogData ++ ": " ++ e))
    | none =>
      match res RestorePhase.otherData with
      | some e => ([RestorePhase.preData, RestorePhase.catalogData, RestorePhase.otherData],
          some (phaseLabel RestorePhase.otherData ++ ": " ++ e))
      | none =>
        match res RestorePhase.postData with
        | some e => (restorePassOrder,
            some (phaseLabel RestorePhase.postData ++ ": " ++ e))
        | none => (restorePassOrder, none)

/-- Environment of one DoRestore run: the outcome of every external
step, in source order.  `infoFile`: outer layer is `os.Open`, inner is
reading/parsing the file's bytes as JSON. -/
structure RestoreEnv where
  infoFile : Except String (Except String JValue)
  createExt : String → String → Option String
  preConn : Option String
  preFn : Except String Bool
  lookRestore : Except String String
  restoreVersionOut : Except String String
  tocCreate : Option String
  tocWrite : Option String
  tocClose : Option String
  passResult : RestorePhase → Option String
  postConn : Option String
  postFn : Except String Bool
  postExtQuery : ExtQueryResult

/-- parseInfoFile (pkg/restore): open the recorded-info file and decode
it with a JSON decoder; an open failure and a decode failure are wrapped
with distinct messages. -/
def parseInfoFile (infoFile : Except String (Except String JValue)) : Except String TsInfo :=
  match infoFile with
  | Except.error e => Except.error ("failed to open version file: " ++ e)
  | Except.ok (Except.error e) => Except.error ("failed to decode tsInfo JSON: " ++ e)
  | Except.ok (Except.ok v) =>
    match decodeTsInfo v with
    | Except.error e => Except.error ("failed to decode tsInfo JSON: " ++ e)
    | Except.ok info => Except.ok info

/-- preRestoreTimescale (pkg/restore): `CreateTimescaleAtVer` at the
recorded schema and version, then a fresh connection, then
`SELECT <schema>.timescaledb_pre_restore()` which must report true. -/
def preRestoreTimescale (env : RestoreEnv) (tsInfo : TsInfo) : Option String :=
  match env.createExt tsInfo.TsSchema tsInfo.TsVersion with
  | some e => some e
  | none =>
    match env.preConn with
    | some e => some e
    | none =>
      match env.preFn with
      | Except.error e => some e
      | Except.ok false => some "TimescaleDB pre restore function failed to run"
      | Except.ok true => none

/-- postRestoreTimescale (pkg/restore): connect, run
`SELECT <schema>.timescaledb_post_restore()` which must report true,
then confirm the installed extension's version and schema against the
recorded `tsInfo`; a mismatch yields the drop-and-retry error. -/
def postRestoreTimescale (env : RestoreEnv) (tsInfo : TsInfo) : Option String :=
  match env.postConn with
  | some e => some e
  | none =>
    match env.postFn with
    | Except.error e => some e
    | Except.ok false => some "post restore function failed"
    | Except.ok true =>
      match env.postExtQuery with
      | ExtQueryResult.dbError e => some e
      | ExtQueryResult.noRows => some "could not confirm creation of TimescaleDB extension"
      | ExtQueryResult.row v s =>
        if s ≠ tsInfo.TsSchema ∨ v ≠ tsInfo.TsVersion then
          some "TimescaleDB extension created in incorrect schema or at incorrect version, please drop the extension and restart the restore"
        else none

/-- getRestoreVersion (pkg/restore): locate pg_restore and query its
version for diagnostics. -/
def getRestoreVersion (env : RestoreEnv) : Except String String :=
  match env.lookRestore with
  | Except.error _ => Except.error "could not find pg_restore"
  | Except.ok restorePath =>
    match env.restoreVersionOut with
    | Except.error e => Except.error ("failed to get version of pg_restore: " ++ e)
    | Except.ok _ => Except.ok restorePath

/-- The body of DoRestore after the deferred postRestoreTimescale is
registered: version lookup, TOC temp-file creation, TOC write, TOC
close, then the four restore passes.  Returns the error DoRestore's
body produces and the passes that were invoked. -/
def doRestoreBody (env : RestoreEnv) : Option String × List RestorePhase :=
  match getRestoreVersion env with
  | Except.error e => (some e, [])
  | Except.ok _ =>
    match env.tocCreate with
    | some e => (some ("pg_restore run failed while creating TOC file: " ++ e), [])
    | none =>
      match env.tocWrite with
      | some e => (some ("pg_restore run failed while writing TOC file: " ++ e), [])
      | none =>
        match env.tocClose with
        | some e => (some ("pg_restore run failed while closing TOC file: " ++ e), [])
        | none =>
          let passes := doRestorePasses env.passResult
          (passes.2, passes.1)

/-- Observable actions of one DoRestore run.  `postRestoreResult` is
`some r` when the deferred `postRestoreTimescale` call ran and returned
`r`; the Go statement `defer postRestoreTimescale(cf.DbURI, tsInfo)`
discards that return value. -/
structure RestoreTrace where
  preRestoreInvoked : Bool
  postRestoreInvoked : Bool
  passesInvoked : List RestorePhase
  postRestoreResult : Option (Option String)
deriving Repr, DecidableEq

/-- DoRestore (pkg/restore): parse the info file, run
preRestoreTimescale, register `defer postRestoreTimescale(...)` (whose
return value is discarded), then run the body.  Returns the error
DoRestore returns to its caller, together with the run's trace. -/
def DoRestore (env : RestoreEnv) : Option String × RestoreTrace :=
  match parseInfoFile env.infoFile with
  | Except.error e => (some e, ⟨false, false, [], none⟩)
  | Except.ok tsInfo =>
    match preRestoreTimescale env tsInfo with
    | some e => (some e, ⟨true, false, [], none⟩)
    | none =>
      let deferredPost := postRestoreTimescale env tsInfo
      let body := doRestoreBody env
      (body.1, ⟨true, true, body.2, some deferredPost⟩)

/-! ## Dump orchestrator (pkg/dump, DoDump and helpers) -/

/-- Environment of one DoDump run (the variant without the job mover):
outcomes of the external steps in source order.  `dumpAllRun` gives the
outcome of a `pg_dumpall` invocation per dump type
("roles" / "tablespaces"). -/
structure DumpEnv where
  lookPgDump : Except String String
  pgDumpVersion : Except String String
  dumpDirExists : Bool
  mkdirOtherErr : Option String
  createFileErr : Option String
  tsConnectErr : Option String
  tsQuery : ExtQueryResult
  encodeErr : Option String
  DumpRoles : Bool
  DumpTablespaces : Bool
  dumpAllRun : String → Option String
  pgDumpRun : Option String

/-- getTimescaleInfo (pkg/dump): connect and query the installed
extension's version and schema.  On every failure path the Go function
returns the zero-valued `info` together with the error; note the zero
value is what a caller that ignores the error will see. -/
def getTimescaleInfo (connectErr : Option String) (q : ExtQueryResult) :
    TsInfo × Option String :=
  match connectErr with
  | some e => (TsInfo.zero, some e)
  | none =>
    match q with
    | ExtQueryResult.dbError e => (TsInfo.zero, some e)
    | ExtQueryResult.noRows =>
      (TsInfo.zero,
        some "TimescaleDB extension not found, make sure it is installed in the database being dumped")
    | ExtQueryResult.row v s => (⟨0, v, s⟩, none)

/-- createInfoFile (pkg/dump): `os.Mkdir(cf.DumpDir, 0700)` — which
fails with "file exists" when the dump directory is already present,
touching nothing — then `os.Create` of the info file inside it. -/
def createInfoFile (env : DumpEnv) : Except String Unit :=
  if env.dumpDirExists then Except.error "mkdir: file exists"
  else
    match env.mkdirOtherErr with
    | some e => Except.error e
    | none =>
      match env.createFileErr with
      | some e => Except.error e
      | none => Except.ok ()

/-- Observable actions of one DoDump run: the TsInfo written to the
metadata file (if any), the pg_dumpall invocations made, and whether
the main pg_dump was run.  These are the only writes DoDump makes into
the dump directory. -/
structure DumpTrace where
  infoWritten : Option TsInfo
  dumpAllRuns : List String
  pgDumpRan : Bool
deriving Repr, DecidableEq

/-- DoDump (pkg/dump): locate pg_dump, query its version, create the
dump directory and info file, call getTimescaleInfo — whose error
return is never checked: the very next statement overwrites `err` with
the encoder's result, so a failed query still encodes the zero-valued
TsInfo — then optionally dump roles and tablespaces, then run pg_dump. -/
def DoDump (env : DumpEnv) : Option String × DumpTrace :=
  match env.lookPgDump with
  | Except.error _ =>
    (some "pg_dump not found, please make sure it is installed", ⟨none, [], false⟩)
  | Except.ok _ =>
    match env.pgDumpVersion with
    | Except.error e => (some ("failed to get version of pg_dump: " ++ e), ⟨none, [], false⟩)
    | Except.ok _ =>
      match createInfoFile env with
      | Except.error e => (some ("error with dump file creation: " ++ e), ⟨none, [], false⟩)
      | Except.ok _ =>
        let tsInfo := (getTimescaleInfo env.tsConnectErr env.tsQuery).1
        match env.encodeErr with
        | some e => (some ("Error writing Timescale info " ++ e), ⟨none, [], false⟩)
        | none =>
          let afterRoles : Option String × List String :=
            if env.DumpRoles then
              match env.dumpAllRun "roles" with
              | some e => (some ("Error dumping roles " ++ e), ["roles"])
              | none => (none, ["roles"])
            else (none, [])
          match afterRoles with
          | (some e, runs) => (some e, ⟨some tsInfo, runs, false⟩)
          | (none, runs) =>
            let afterTs : Option String × List String :=
              if env.DumpTablespaces then
                match env.dumpAllRun "tablespaces" with
                | some e => (some ("Error dumping tablespaces " ++ e), runs ++ ["tablespaces"])
                | none => (none, runs ++ ["tablespaces"])
              else (none, runs)
            match afterTs with
            | (some e, runs2) => (some e, ⟨some tsInfo, runs2, false⟩)
            | (none, runs2) =>
              match env.pgDumpRun with
              | some e => (some ("pg_dump run failed with: " ++ e), ⟨some tsInfo, runs2, true⟩)
              | none => (none, ⟨some tsInfo, runs2, true⟩)

/-! ## Job mover (pkg/dump, compressionJobMover and helpers)

The moved-jobs ledger `movedJobs` is a Go map from job id to the job's
pre-move next-start timestamp, modelled as an association list; times
are modelled as integers. -/

/-- Map lookup in the moved-jobs ledger (first binding wins; the ledger
never holds two bindings for one key because an insertion happens only
when the lookup fails). -/
def lookupJob (j : Int) : List (Int × Int) → Option Int
  | [] => none
  | (a, b) :: rest => if j = a then some b else lookupJob j rest

/-- One tick's processing of the rows the move query returned
(`rows.Next()` loop): for each `(jobID, origStart)` row, record
`origStart` in the ledger only when `jobID` is not already tracked —
`if _, ok := movedJobs[jobID]; !ok { movedJobs[jobID] = origStart }`. -/
def processRows (moved : List (Int × Int)) (rows : List (Int × Int)) : List (Int × Int) :=
  rows.foldl
    (fun m jt => if (lookupJob jt.1 m).isSome then m else (jt.1, jt.2) :: m)
    moved

/-- Outcome of the running-jobs probe
(`conn.QueryRow(runningJobsSQL).Scan(&runningJobIDs)`): a row of ids,
`pgx.ErrNoRows` (no monitored job in flight), or another error. -/
inductive ProbeResult where
  | rows (ids : String)
  | noRows
  | dbError (e : String)

/-- External inputs of one tick of the job mover's loop: the move
query's outcome and the running-jobs probe's outcome. -/
structure TickInput where
  moveErr : Option String
  moveRows : List (Int × Int)
  probe : ProbeResult

/-- State of the job mover task across ticks.  `probes` counts
running-jobs probe queries issued and `signals` counts sends on the
`jobsStopped` channel. -/
structure MoverS where
  exited : Bool
  runningJobs : Bool
  movedJobs : List (Int × Int)
  signals : Nat
  probes : Nat

/-- Initial state of compressionJobMover:
`movedJobs := make(map[int64]time.Time)`, `runningJobs := true`. -/
def moverInit : MoverS := ⟨false, true, [], 0, 0⟩

/-- One iteration of compressionJobMover's `for` loop, up to the
tick-or-cleanup select: run the move query (a query error warns and
exits the task), fold its rows into the ledger, and — only while
`runningJobs` is still true — issue the running-jobs probe; on
`pgx.ErrNoRows` set `runningJobs = false` and send on `jobsStopped`;
on any other probe error warn and exit the task. -/
def moverTick (s : MoverS) (inp : TickInput) : MoverS :=
  if s.exited then s
  else
    match inp.moveErr with
    | some _ => { s with exited := true }
    | none =>
      let moved := processRows s.movedJobs inp.moveRows
      if s.runningJobs then
        match inp.probe with
        | ProbeResult.dbError _ =>
          { s with movedJobs := moved, probes := s.probes + 1, exited := true }
        | ProbeResult.noRows =>
          { s with movedJobs := moved, probes := s.probes + 1,
                   runningJobs := false, signals := s.signals + 1 }
        | ProbeResult.rows _ =>
          { s with movedJobs := moved, probes := s.probes + 1 }
      else { s with movedJobs := moved }

/-- The job mover's loop run over a list of tick inputs. -/
def runMover (inputs : List TickInput) : MoverS := inputs.foldl moverTick moverInit

/-- Outcome of one replay of a ledger entry on cleanup
(`conn.QueryRow(replaceJobSQL, jobID, origStart).Scan(&jobMoved)`):
the scan succeeded, `pgx.ErrNoRows` (the job no longer exists), or
another database error. -/
inductive ReplayResult where
  | replaced (moved : Bool)
  | noRows
  | dbError (e : String)

/-- The cleanup pass on cancellation: iterate the ledger, replay each
entry; an error other than `pgx.ErrNoRows` warns and returns
immediately, abandoning the rest of the ledger.  Returns the job ids
attempted, in order, and whether the pass aborted early. -/
def cleanupPass (replay : Int → Int → ReplayResult) :
    List (Int × Int) → List Int × Bool
  | [] => ([], false)
  | (jobID, origStart) :: rest =>
    match replay jobID origStart with
    | ReplayResult.dbError _ => ([jobID], true)
    | _ =>
      let r := cleanupPass replay rest
      (jobID :: r.1, r.2)

/-- The rescheduling time computed by `replaceJobSQL`'s CASE expression:
`CASE WHEN $2 > now() THEN $2 ELSE now() + random() * 5min END`, with
`rand` standing for the sampled `random() * '5 min'` offset. -/
def replaceJobNextStart (origStart now rand : Int) : Int :=
  if now < origStart then origStart else now + rand

/-- compressionJobMoverSQL (pkg/dump): select the SQL dialect from the
installed TimescaleDB major version.  Version 1 uses
`timescaledb_information.policy_stats`; version 2 joins
`timescaledb_information.jobs` with `job_stats`, filtering by
application-name prefixes (optionally including user-defined actions);
any other version sets only `err`, leaving the three named string
results at the Go zero value `""`. -/
def compressionJobMoverSQL (tsMajorVersion : Int) (pauseUDAs : Bool) :
    String × String × String × Option String :=
  if tsMajorVersion = 1 then
    ("SELECT string_agg(job_id::text, ', ') \n\t\tFROM timescaledb_information.policy_stats \n\t\tWHERE last_finish ='-infinity' AND next_start = '-infinity' \n\t\tAND job_type IN ('compress_chunks', 'reorder') \n\t\tHAVING string_agg(job_id::text, ', ') IS NOT NULL",
     "SELECT t.job_id, prev_start FROM \n\t\t\t(SELECT (alter_job_schedule(p.job_id, next_start=> now()+ ('15 min' + random()*'5 min'::interval))).*, p.next_start as prev_start\n\t\t\tFROM timescaledb_information.policy_stats p \n\t\t\tWHERE NOT(last_finish ='-infinity' AND next_start = '-infinity') \n\t\t\tAND next_start < now()+'10 min' \n\t\t\tAND p.job_type IN ('compress_chunks', 'reorder') ) t",
     "SELECT (alter_job_schedule($1, next_start=>CASE WHEN $2::timestamptz > now() THEN $2::timestamptz ELSE now()+ random()*'5 min'::interval END)).job_id = $1",
     none)
  else if tsMajorVersion = 2 then
    let jobWhere :=
      if pauseUDAs then
        "(application_name LIKE 'Compression%' OR application_name LIKE 'Reorder%' OR application_name LIKE 'User-Defined%')"
      else
        "(application_name LIKE 'Compression%' OR application_name LIKE 'Reorder%')"
    ("SELECT string_agg(j.job_id::text, ', ') \n\t\tFROM timescaledb_information.jobs j \n\t\tINNER JOIN timescaledb_information.job_stats js ON j.job_id = js.job_id \n\t\tWHERE js.next_start='-infinity' AND js.last_run_status IS NULL AND js.job_status = 'Scheduled' \n\t\tAND " ++ jobWhere ++ "\n\t\tHAVING string_agg(j.job_id::text, ', ') IS NOT NULL",
     "SELECT t.job_id, prev_start FROM \n\t\t\t(SELECT (alter_job(js.job_id, next_start=> now()+ ('15 min' + random()*'5 min'::interval))).*, js.next_start as prev_start\n\t\t\tFROM timescaledb_information.jobs j \n\t\t\tINNER JOIN timescaledb_information.job_stats js ON j.job_id = js.job_id  \n\t\t\tWHERE NOT(js.next_start='-infinity' AND js.last_run_status IS NULL AND js.job_status = 'Scheduled' ) \n\t\t\tAND js.next_start < now()+'10 min' \n\t\t\tAND " ++ jobWhere ++ " ) t",
     "SELECT (alter_job($1, next_start=>CASE WHEN $2::timestamptz > now() THEN $2::timestamptz ELSE now()+ random()*'5 min'::interval END)).job_id = $1",
     none)
  else
    ("", "", "", some "unknown Timescale major version")

/-! ## Concrete runs used below -/

/-- The verification error both CreateTimescaleAtVer and
postRestoreTimescale return when the installed extension's schema or
version differs from the expected one. -/
def dropRetryMsg : String :=
  "TimescaleDB extension created in incorrect schema or at incorrect version, please drop the extension and restart the restore"

/-- An info file holding the JSON object the dump writes, with the given
field values. -/
def okInfoFile (n : Int) (v s : String) : Except String (Except String JValue) :=
  Except.ok (Except.ok (JValue.jobj
    [("TsInfoVersion", JValue.jint n),
     ("TsVersion", JValue.jstr v),
     ("TsSchema", JValue.jstr s)]))

/-- A restore run in which every external step succeeds and the
installed extension matches the recorded info. -/
def baseRestoreEnv : RestoreEnv where
  infoFile := okInfoFile 0 "2.1.0" "public"
  createExt := fun _ _ => none
  preConn := none
  preFn := Except.ok true
  lookRestore := Except.ok "pg_restore"
  restoreVersionOut := Except.ok "pg_restore (PostgreSQL) 12.4"
  tocCreate := none
  tocWrite := none
  tocClose := none
  passResult := fun _ => none
  postConn := none
  postFn := Except.ok true
  postExtQuery := ExtQueryResult.row "2.1.0" "public"

/-- A restore run whose final verification sees version 2.5.0 although
2.1.0 was recorded: a concurrent interferer updated the extension. -/
def c2Env : RestoreEnv :=
  { baseRestoreEnv with postExtQuery := ExtQueryResult.row "2.5.0" "public" }

/-- A restore run whose metadata file carries format version 999
(the dump always writes 0). -/
def c8Env : RestoreEnv :=
  { baseRestoreEnv with infoFile := okInfoFile 999 "2.1.0" "public" }

/-- A restore run whose metadata file holds malformed JSON. -/
def c8BadFileEnv : RestoreEnv :=
  { baseRestoreEnv with infoFile := Except.ok (Except.error "unexpected end of JSON input") }

/-- A restore run whose catalog-data pass (pass 2) exits nonzero. -/
def c1WitnessEnv : RestoreEnv :=
  { baseRestoreEnv with
      passResult := fun ph =>
        if ph = RestorePhase.catalogData then some "exit status 1" else none }

/-- A dump run in which every external step succeeds. -/
def baseDumpEnv : DumpEnv where
  lookPgDump := Except.ok "/usr/bin/pg_dump"
  pgDumpVersion := Except.ok "pg_dump (PostgreSQL) 12.4"
  dumpDirExists := false
  mkdirOtherErr := none
  createFileErr := none
  tsConnectErr := none
  tsQuery := ExtQueryResult.row "2.1.0" "public"
  encodeErr := none
  DumpRoles := true
  DumpTablespaces := true
  dumpAllRun := fun _ => none
  pgDumpRun := none

/-- A dump run against a database without the TimescaleDB extension:
the info query finds no row. -/
def c7Env : DumpEnv := { baseDumpEnv with tsQuery := ExtQueryResult.noRows }

/-- A cleanup replay in which job 1's replay hits a database error and
job 2's replay would succeed. -/
def c4Replay : Int → Int → ReplayResult :=
  fun j _ =>
    if j = 1 then ReplayResult.dbError "server connection lost"
    else ReplayResult.replaced true

/-! ## Lemmas about the TOC filter -/

/-- Without timestamp prepending, the line loop of writeAndFilterOutput
is exactly a filter: it keeps, unchanged and in order, the lines no
filter substring occurs in. -/
theorem writeAndFilterOutput_eq_filter (stamp : String) (filters : List String)
    (lines : List String) :
    writeAndFilterOutput stamp false filters lines
      = lines.filter (fun l => !(filters.any (fun f => strContains l f))) := by
  induction lines with
  | nil => rfl
  | cons l rest ih =>
    simp only [writeAndFilterOutput, List.filter_cons]
    cases h : filters.any (fun f => strContains l f) <;> simp [h, ih]

/-! ## Lemmas about the moved-jobs ledger -/

/-- Unfolding lemma: one row step of processRows. -/
theorem processRows_cons (m : List (Int × Int)) (a b : Int) (rest : List (Int × Int)) :
    processRows m ((a, b) :: rest)
      = processRows (if (lookupJob a m).isSome then m else (a, b) :: m) rest := rfl

/-- A job already recorded in the ledger keeps its recorded original
time across any batch of detected rows. -/
theorem processRows_keeps (rows : List (Int × Int)) (m : List (Int × Int)) (j t : Int)
    (h : lookupJob j m = some t) :
    lookupJob j (processRows m rows) = some t := by
  induction rows generalizing m with
  | nil => exact h
  | cons p rest ih =>
    obtain ⟨a, b⟩ := p
    rw [processRows_cons]
    apply ih
    by_cases hins : (lookupJob a m).isSome
    · simpa [hins] using h
    · by_cases hja : j = a
      · subst hja; rw [h] at hins; simp at hins
      · simp [hins, lookupJob, hja, h]

/-- A job not yet in the ledger ends up recorded with the time of its
first detected row. -/
theorem processRows_new (rows : List (Int × Int)) (m : List (Int × Int)) (j : Int)
    (h : lookupJob j m = none) :
    lookupJob j (processRows m rows) = lookupJob j rows := by
  induction rows generalizing m with
  | nil => simpa [processRows, lookupJob] using h
  | cons p rest ih =>
    obtain ⟨a, b⟩ := p
    rw [processRows_cons]
    by_cases hja : j = a
    · subst hja
      rw [if_neg (by simp [h])]
      rw [processRows_keeps rest ((j, b) :: m) j b (by simp [lookupJob])]
      simp [lookupJob]
    · have hm2 : lookupJob j (if (lookupJob a m).isSome then m else (a, b) :: m) = none := by
        split
        · exact h
        · simp [lookupJob, hja, h]
      rw [ih _ hm2]
      simp [lookupJob, hja]

/-! ## Claim theorems -/

/-- C9: for every listing produced by the wrapped restore tool, the
filtered table-of-contents built by makeRestoreTOC equals that listing
with exactly the lines containing the literal substring
"COMMENT - EXTENSION timescaledb" removed; every other line is
preserved unchanged and in its original order (the result is the
filter of the listing, hence a sublist of it). -/
theorem c9_make_restore_toc_filters_comment_line (stamp : String) (listing : List String) :
    makeRestoreTOC stamp listing
      = listing.filter (fun l => !(strContains l "COMMENT - EXTENSION timescaledb")) ∧
    List.Sublist (makeRestoreTOC stamp listing) listing := by
  have h : makeRestoreTOC stamp listing
      = listing.filter (fun l => !(strContains l "COMMENT - EXTENSION timescaledb")) := by
    rw [makeRestoreTOC, writeAndFilterOutput_eq_filter]
    simp
  exact ⟨h, h ▸ List.filter_sublist listing⟩

/-- C3: a job identifier already tracked in the moved-jobs ledger keeps
its recorded pre-move timestamp unchanged across any later batch of
detected rows (idempotence under repeated detection), and a job not yet
tracked is recorded with the timestamp of its first detected row. -/
theorem c3_ledger_first_detection_wins (m rows : List (Int × Int)) (j : Int) :
    (∀ t, lookupJob j m = some t → lookupJob j (processRows m rows) = some t) ∧
    (lookupJob j m = none → lookupJob j (processRows m rows) = lookupJob j rows) :=
  ⟨fun t h => processRows_keeps rows m j t h, fun h => processRows_new rows m j h⟩

/-- C3 witness: job 7, recorded at time 100, is detected again at time
999 and keeps 100; job 8, not yet tracked, gets its first detected
time 50. -/
theorem c3_ledger_first_detection_wins_witness :
    lookupJob 7 (processRows [(7, 100)] [(7, 999), (8, 50)]) = some 100 ∧
    lookupJob 8 (processRows [(7, 100)] [(7, 999), (8, 50)]) = lookupJob 8 [(7, 999), (8, 50)] :=
  ⟨(c3_ledger_first_detection_wins [(7, 100)] [(7, 999), (8, 50)] 7).1 100 (by decide),
   (c3_ledger_first_detection_wins [(7, 100)] [(7, 999), (8, 50)] 8).2 (by decide)⟩

/-- C6: for every installed TimescaleDB major version outside {1, 2},
SQL-dialect selection returns the "unknown version" error together with
empty running-jobs, move and replace query strings, for both settings
of the pause-user-defined-actions flag. -/
theorem c6_unknown_major_version (v : Int) (h1 : v ≠ 1) (h2 : v ≠ 2) (pauseUDAs : Bool) :
    compressionJobMoverSQL v pauseUDAs
      = ("", "", "", some "unknown Timescale major version") := by
  unfold compressionJobMoverSQL
  rw [if_neg h1, if_neg h2]

/-- C6 witness: versions 3 and 0 with both flag settings. -/
theorem c6_unknown_major_version_witness :
    compressionJobMoverSQL 3 true = ("", "", "", some "unknown Timescale major version") ∧
    compressionJobMoverSQL 0 false = ("", "", "", some "unknown Timescale major version") :=
  ⟨c6_unknown_major_version 3 (by decide) (by decide) true,
   c6_unknown_major_version 0 (by decide) (by decide) false⟩

/-- Signal-count invariant of the mover loop: while `runningJobs` is
still true no signal has been sent, and once it is false exactly one
has been. -/
def moverInv (s : MoverS) : Prop := s.signals = if s.runningJobs then 0 else 1

theorem moverTick_inv (s : MoverS) (inp : TickInput) (h : moverInv s) :
    moverInv (moverTick s inp) := by
  unfold moverInv at *
  unfold moverTick
  by_cases hex : s.exited
  · simpa [hex] using h
  · simp only [hex, if_false, Bool.false_eq_true]
    cases hm : inp.moveErr with
    | some e => simpa using h
    | none =>
      by_cases hr : s.runningJobs
      · cases hp : inp.probe <;> simp_all
      · simp_all

theorem foldl_moverTick_inv (l : List TickInput) (s : MoverS) (h : moverInv s) :
    moverInv (l.foldl moverTick s) := by
  induction l generalizing s with
  | nil => exact h
  | cons i rest ih => exact ih _ (moverTick_inv s i h)

/-- Once `runningJobs` is false, a tick neither probes nor signals, and
`runningJobs` stays false. -/
theorem moverTick_stopped (s : MoverS) (inp : TickInput) (h : s.runningJobs = false) :
    (moverTick s inp).probes = s.probes ∧ (moverTick s inp).signals = s.signals ∧
    (moverTick s inp).runningJobs = false := by
  unfold moverTick
  by_cases hex : s.exited
  · simp [hex, h]
  · cases hm : inp.moveErr <;> simp [hex, hm, h]

theorem foldl_moverTick_stopped (post : List TickInput) (s : MoverS)
    (h : s.runningJobs = false) :
    (post.foldl moverTick s).probes = s.probes ∧
    (post.foldl moverTick s).signals = s.signals := by
  induction post generalizing s with
  | nil => exact ⟨rfl, rfl⟩
  | cons i rest ih =>
    obtain ⟨h1, h2, h3⟩ := moverTick_stopped s i h
    obtain ⟨g1, g2⟩ := ih (moverTick s i) h3
    exact ⟨by rw [List.foldl_cons, g1, h1], by rw [List.foldl_cons, g2, h2]⟩

/-- C5: over the lifetime of one job mover task the jobs-stopped signal
is sent at most once, whatever the tick inputs are; and from any state
in which `runningJobs` has become false, no later tick issues the
running-jobs probe again or sends the signal again. -/
theorem c5_jobs_stopped_signal_once :
    (∀ inputs : List TickInput, (runMover inputs).signals ≤ 1) ∧
    (∀ (s : MoverS) (inp : TickInput), s.runningJobs = false →
      (moverTick s inp).probes = s.probes ∧ (moverTick s inp).signals = s.signals) ∧
    (∀ (s : MoverS) (post : List TickInput), s.runningJobs = false →
      (post.foldl moverTick s).probes = s.probes ∧
      (post.foldl moverTick s).signals = s.signals) := by
  refine ⟨?_, ?_, ?_⟩
  · intro inputs
    have h := foldl_moverTick_inv inputs moverInit (by rfl)
    unfold moverInv at h
    rw [runMover, h]
    split <;> omega
  · intro s inp h
    exact ⟨(moverTick_stopped s inp h).1, (moverTick_stopped s inp h).2.1⟩
  · intro s post h
    exact foldl_moverTick_stopped post s h

/-- C5 witness: two consecutive no-rows probes still yield one signal,
and a stopped state is left untouched by a further tick. -/
theorem c5_jobs_stopped_signal_once_witness :
    (runMover [⟨none, [], ProbeResult.noRows⟩, ⟨none, [], ProbeResult.noRows⟩]).signals ≤ 1 ∧
    (moverTick ⟨false, false, [(3, 40)], 1, 5⟩ ⟨none, [], ProbeResult.noRows⟩).probes = 5 :=
  ⟨c5_jobs_stopped_signal_once.1 [⟨none, [], ProbeResult.noRows⟩, ⟨none, [], ProbeResult.noRows⟩],
   (c5_jobs_stopped_signal_once.2.1 ⟨false, false, [(3, 40)], 1, 5⟩ ⟨none, [], ProbeResult.noRows⟩ rfl).1⟩

/-- Helper: the cleanup pass attempts every ledger entry exactly once
(in order) when no replay hits a database error other than
`pgx.ErrNoRows`. -/
theorem cleanupPass_no_dbError (replay : Int → Int → ReplayResult)
    (entries : List (Int × Int))
    (hnofail : ∀ j t, (j, t) ∈ entries → ∀ e, replay j t ≠ ReplayResult.dbError e) :
    (cleanupPass replay entries).1 = entries.map Prod.fst ∧
    (cleanupPass replay entries).2 = false := by
  induction entries with
  | nil => exact ⟨rfl, rfl⟩
  | cons p rest ih =>
    obtain ⟨j, t⟩ := p
    obtain ⟨ih1, ih2⟩ := ih (fun a b hab e => hnofail a b (List.mem_cons_of_mem _ hab) e)
    have hj := hnofail j t (List.mem_cons_self _ _)
    cases hr : replay j t with
    | dbError e => exact absurd hr (hj e)
    | replaced b => simp [cleanupPass, hr, ih1, ih2]
    | noRows => simp [cleanupPass, hr, ih1, ih2]

/-- C4 (amended): on cancellation the ledger entries are replayed in
order until the first database error: with no such error every entry is
attempted exactly once, a no-rows replay (the job no longer exists)
does not stop the pass; a future original time is restored exactly and
a past one is rescheduled to now plus the sampled nonnegative offset;
but a replay failing with any other database error aborts the pass,
leaving the remaining entries unattempted. -/
theorem c4_cleanup_replay (replay : Int → Int → ReplayResult) (entries : List (Int × Int))
    (hnofail : ∀ j t, (j, t) ∈ entries → ∀ e, replay j t ≠ ReplayResult.dbError e) :
    (cleanupPass replay entries).1 = entries.map Prod.fst ∧
    (cleanupPass replay entries).2 = false ∧
    (∀ origStart now rand : Int,
      (now < origStart → replaceJobNextStart origStart now rand = origStart) ∧
      (origStart ≤ now → replaceJobNextStart origStart now rand = now + rand)) ∧
    (∀ (replay2 : Int → Int → ReplayResult) (j t : Int) (e : String)
        (rest : List (Int × Int)),
      replay2 j t = ReplayResult.dbError e →
      cleanupPass replay2 ((j, t) :: rest) = ([j], true)) := by
  refine ⟨(cleanupPass_no_dbError replay entries hnofail).1,
          (cleanupPass_no_dbError replay entries hnofail).2, ?_, ?_⟩
  · intro origStart now rand
    constructor
    · intro h; rw [replaceJobNextStart, if_pos h]
    · intro h; rw [replaceJobNextStart, if_neg (by omega)]
  · intro replay2 j t e rest h
    simp [cleanupPass, h]

/-- C4 counterexample: with two ledger entries whose first replay fails
with a database error, the cleanup pass attempts only the first entry
and abandons the second — a replay failure does stop the pass; and when
the original time 40 has passed and the sampled random offset is 0, the
job is rescheduled to exactly now (50), not strictly after it. -/
theorem c4_cleanup_replay_cex :
    (cleanupPass c4Replay [(1, 10), (2, 20)] = ([1], true) ∧
      ¬ (2 ∈ (cleanupPass c4Replay [(1, 10), (2, 20)]).1)) ∧
    (replaceJobNextStart 40 50 0 = 50 ∧ ¬ (50 < replaceJobNextStart 40 50 0)) := by
  refine ⟨⟨?_, ?_⟩, ?_, ?_⟩ <;> decide

/-- C4 witness: two no-rows replays attempt both entries, and a future
original time 100 is restored exactly. -/
theorem c4_cleanup_replay_witness :
    (cleanupPass (fun _ _ => ReplayResult.noRows) [(1, 10), (2, 20)]).1 = [1, 2] ∧
    replaceJobNextStart 100 50 3 = 100 := by
  have h := c4_cleanup_replay (fun _ _ => ReplayResult.noRows) [(1, 10), (2, 20)]
    (by intro j t _ e h; cases h)
  exact ⟨h.1, (h.2.2.1 100 50 3).1 (by decide)⟩

/-- Helper: full characterization of the four-pass sequence for an
arbitrary assignment of pass outcomes: the invoked passes form a prefix
of the source order; all-success runs all four with no error; after a
failing pass no later pass is invoked; and the first failing pass ends
the invoked list and labels the returned error. -/
theorem doRestorePasses_spec (res : RestorePhase → Option String) :
    (doRestorePasses res).1 <+: restorePassOrder ∧
    ((∀ ph, res ph = none) → doRestorePasses res = (restorePassOrder, none)) ∧
    (∀ ph e, res ph = some e →
      ∀ q, phaseIdx ph < phaseIdx q → q ∉ (doRestorePasses res).1) ∧
    (∀ ph e, res ph = some e →
      (∀ q, phaseIdx q < phaseIdx ph → res q = none) →
      (doRestorePasses res).1 = restorePassOrder.take (phaseIdx ph + 1) ∧
      (doRestorePasses res).2 = some (phaseLabel ph ++ ": " ++ e)) := by
  cases h0 : res RestorePhase.preData with
  | some e0 =>
    have hD : doRestorePasses res
        = ([RestorePhase.preData], some (phaseLabel RestorePhase.preData ++ ": " ++ e0)) := by
      simp only [doRestorePasses, h0]
    refine ⟨?_, ?_, ?_, ?_⟩
    · rw [hD]
      exact ⟨[RestorePhase.catalogData, RestorePhase.otherData, RestorePhase.postData], rfl⟩
    · intro hall
      have h := hall RestorePhase.preData
      rw [h0] at h
      exact Option.noConfusion h
    · intro ph e hph q hlt hq
      rw [hD] at hq
      cases ph <;> cases q <;> simp_all [phaseIdx]
    · intro ph e hph hearly
      cases ph with
      | preData =>
        rw [h0] at hph
        injection hph with he
        subst he
        rw [hD]
        exact ⟨rfl, rfl⟩
      | catalogData =>
        have h := hearly RestorePhase.preData (by simp [phaseIdx])
        rw [h0] at h
        exact Option.noConfusion h
      | otherData =>
        have h := hearly RestorePhase.preData (by simp [phaseIdx])
        rw [h0] at h
        exact Option.noConfusion h
      | postData =>
        have h := hearly RestorePhase.preData (by simp [phaseIdx])
        rw [h0] at h
        exact Option.noConfusion h
  | none =>
    cases h1 : res RestorePhase.catalogData with
    | some e1 =>
      have hD : doRestorePasses res
          = ([RestorePhase.preData, RestorePhase.catalogData],
             some (phaseLabel RestorePhase.catalogData ++ ": " ++ e1)) := by
        simp only [doRestorePasses, h0, h1]
      refine ⟨?_, ?_, ?_, ?_⟩
      · rw [hD]
        exact ⟨[RestorePhase.otherData, RestorePhase.postData], rfl⟩
      · intro hall
        have h := hall RestorePhase.catalogData
        rw [h1] at h
        exact Option.noConfusion h
      · intro ph e hph q hlt hq
        rw [hD] at hq
        cases ph <;> cases q <;> simp_all [phaseIdx]
      · intro ph e hph hearly
        cases ph with
        | preData =>
          rw [h0] at hph
          exact Option.noConfusion hph
        | catalogData =>
          rw [h1] at hph
          injection hph with he
          subst he
          rw [hD]
          exact ⟨rfl, rfl⟩
        | otherData =>
          have h := hearly RestorePhase.catalogData (by simp [phaseIdx])
          rw [h1] at h
          exact Option.noConfusion h
        | postData =>
          have h := hearly RestorePhase.catalogData (by simp [phaseIdx])
          rw [h1] at h
          exact Option.noConfusion h
    | none =>
      cases h2 : res RestorePhase.otherData with
      | some e2 =>
        have hD : doRestorePasses res
            = ([RestorePhase.preData, RestorePhase.catalogData, RestorePhase.otherData],
               some (phaseLabel RestorePhase.otherData ++ ": " ++ e2)) := by
          simp only [doRestorePasses, h0, h1, h2]
        refine ⟨?_, ?_, ?_, ?_⟩
        · rw [hD]
          exact ⟨[RestorePhase.postData], rfl⟩
        · intro hall
          have h := hall RestorePhase.otherData
          rw [h2] at h
          exact Option.noConfusion h
        · intro ph e hph q hlt hq
          rw [hD] at hq
          cases ph <;> cases q <;> simp_all [phaseIdx]
        · intro ph e hph hearly
          cases ph with
          | preData =>
            rw [h0] at hph
            exact Option.noConfusion hph
          | catalogData =>
            rw [h1] at hph
            exact Option.noConfusion hph
          | otherData =>
            rw [h2] at hph
            injection hph with he
            subst he
            rw [hD]
            exact ⟨rfl, rfl⟩
          | postData =>
            have h := hearly RestorePhase.otherData (by simp [phaseIdx])
            rw [h2] at h
            exact Option.noConfusion h
      | none =>
        cases h3 : res RestorePhase.postData with
        | some e3 =>
          have hD : doRestorePasses res
              = (restorePassOrder,
                 some (phaseLabel RestorePhase.postData ++ ": " ++ e3)) := by
            simp only [doRestorePasses, h0, h1, h2, h3]
          refine ⟨?_, ?_, ?_, ?_⟩
          · rw [hD]
          · intro hall
            have h := hall RestorePhase.postData
            rw [h3] at h
            exact Option.noConfusion h
          · intro ph e hph q hlt hq
            rw [hD] at hq
            cases ph <;> cases q <;> simp_all [phaseIdx, restorePassOrder]
          · intro ph e hph hearly
            cases ph with
            | preData =>
              rw [h0] at hph
              exact Option.noConfusion hph
            | catalogData =>
              rw [h1] at hph
              exact Option.noConfusion hph
            | otherData =>
              rw [h2] at hph
              exact Option.noConfusion hph
            | postData =>
              rw [h3] at hph
              injection hph with he
              subst he
              rw [hD]
              exact ⟨rfl, rfl⟩
        | none =>
          have hD : doRestorePasses res = (restorePassOrder, none) := by
            simp only [doRestorePasses, h0, h1, h2, h3]
          refine ⟨?_, ?_, ?_, ?_⟩
          · rw [hD]
          · intro _
            exact hD
          · intro ph e hph q hlt hq
            cases ph <;> simp_all
          · intro ph e hph hearly
            cases ph <;> simp_all

/-- C1: once a restore run reaches the pass stage (metadata parsed,
pre-restore hook succeeded, version lookup and TOC construction
succeeded), DoRestore issues the pg_restore passes in the strict order
pre-data, catalog-data, other-data, post-data; a run with no pass
failure issues exactly the four passes; if a pass fails, DoRestore
returns the error labeled with that pass's phase and no later pass is
ever invoked. -/
theorem c1_four_phase_restore_sequence (env : RestoreEnv) (tsInfo : TsInfo) (rp : String)
    (hparse : parseInfoFile env.infoFile = Except.ok tsInfo)
    (hpre : preRestoreTimescale env tsInfo = none)
    (hver : getRestoreVersion env = Except.ok rp)
    (htoc1 : env.tocCreate = none) (htoc2 : env.tocWrite = none)
    (htoc3 : env.tocClose = none) :
    (DoRestore env).2.passesInvoked = (doRestorePasses env.passResult).1 ∧
    (DoRestore env).1 = (doRestorePasses env.passResult).2 ∧
    (doRestorePasses env.passResult).1 <+: restorePassOrder ∧
    ((∀ ph, env.passResult ph = none) →
      doRestorePasses env.passResult = (restorePassOrder, none)) ∧
    (∀ ph e, env.passResult ph = some e →
      ∀ q, phaseIdx ph < phaseIdx q → q ∉ (doRestorePasses env.passResult).1) ∧
    (∀ ph e, env.passResult ph = some e →
      (∀ q, phaseIdx q < phaseIdx ph → env.passResult q = none) →
      (doRestorePasses env.passResult).1 = restorePassOrder.take (phaseIdx ph + 1) ∧
      (doRestorePasses env.passResult).2
        = some (phaseLabel ph ++ ": " ++ e)) := by
  have hbody : doRestoreBody env
      = ((doRestorePasses env.passResult).2, (doRestorePasses env.passResult).1) := by
    simp only [doRestoreBody, hver, htoc1, htoc2, htoc3]
  have hDo : DoRestore env
      = ((doRestorePasses env.passResult).2,
         ⟨true, true, (doRestorePasses env.passResult).1,
          some (postRestoreTimescale env tsInfo)⟩) := by
    simp only [DoRestore, hparse, hpre, hbody]
  obtain ⟨s1, s2, s3, s4⟩ := doRestorePasses_spec env.passResult
  exact ⟨by rw [hDo], by rw [hDo], s1, s2, s3, s4⟩

/-- C1 witness: a run whose catalog-data pass (pass 2) exits nonzero
invokes exactly passes 1 and 2 and returns the catalog-phase-labeled
error. -/
theorem c1_four_phase_restore_sequence_witness :
    (DoRestore c1WitnessEnv).2.passesInvoked = (doRestorePasses c1WitnessEnv.passResult).1 ∧
    (doRestorePasses c1WitnessEnv.passResult).1 <+: restorePassOrder :=
  ⟨(c1_four_phase_restore_sequence c1WitnessEnv ⟨0, "2.1.0", "public"⟩ "pg_restore"
      (by rfl) (by rfl) (by rfl) rfl rfl rfl).1,
   (c1_four_phase_restore_sequence c1WitnessEnv ⟨0, "2.1.0", "public"⟩ "pg_restore"
      (by rfl) (by rfl) (by rfl) rfl rfl rfl).2.2.1⟩

/-- C2 counterexample: a run in which every pass succeeds but the final
verification finds version 2.5.0 where 2.1.0 was recorded.  The
deferred postRestoreTimescale call does return the drop-and-retry
mismatch error, but DoRestore returns no error to its caller: the
`defer postRestoreTimescale(cf.DbURI, tsInfo)` statement discards the
returned error, so the mismatch is never surfaced. -/
theorem c2_mismatch_error_not_surfaced_cex :
    (DoRestore c2Env).1 = none ∧
    (DoRestore c2Env).2.postRestoreResult = some (some dropRetryMsg) := by
  exact ⟨rfl, rfl⟩

/-- C2 (amended): after the restore passes, the deferred
postRestoreTimescale call runs on every run in which metadata parsing
and pre-restore succeeded, and returns the error telling the operator
to drop the extension and retry whenever the installed schema or
version differs from the recorded values — but DoRestore discards the
deferred call's return value, so its result to the caller is the body's
result alone and the mismatch error never reaches the caller. -/
theorem c2_post_restore_mismatch_discarded (env : RestoreEnv) (tsInfo : TsInfo)
    (v s : String)
    (hconn : env.postConn = none) (hfn : env.postFn = Except.ok true)
    (hq : env.postExtQuery = ExtQueryResult.row v s)
    (hmm : s ≠ tsInfo.TsSchema ∨ v ≠ tsInfo.TsVersion)
    (hparse : parseInfoFile env.infoFile = Except.ok tsInfo)
    (hpre : preRestoreTimescale env tsInfo = none) :
    postRestoreTimescale env tsInfo = some dropRetryMsg ∧
    (DoRestore env).2.postRestoreResult = some (postRestoreTimescale env tsInfo) ∧
    (DoRestore env).1 = (doRestoreBody env).1 := by
  have hpost : postRestoreTimescale env tsInfo = some dropRetryMsg := by
    simp only [postRestoreTimescale, hconn, hfn, hq]
    rw [if_pos hmm]
    rfl
  have hDo : DoRestore env
      = ((doRestoreBody env).1,
         ⟨true, true, (doRestoreBody env).2, some (postRestoreTimescale env tsInfo)⟩) := by
    simp only [DoRestore, hparse, hpre]
  exact ⟨hpost, by rw [hDo], by rw [hDo]⟩

/-- C2 witness: the amended claim at the concrete mismatching run. -/
theorem c2_post_restore_mismatch_discarded_witness :
    postRestoreTimescale c2Env ⟨0, "2.1.0", "public"⟩ = some dropRetryMsg ∧
    (DoRestore c2Env).1 = (doRestoreBody c2Env).1 :=
  ⟨(c2_post_restore_mismatch_discarded c2Env ⟨0, "2.1.0", "public"⟩ "2.5.0" "public"
      rfl rfl rfl (by right; decide) (by rfl) (by rfl)).1,
   (c2_post_restore_mismatch_discarded c2Env ⟨0, "2.1.0", "public"⟩ "2.5.0" "public"
      rfl rfl rfl (by right; decide) (by rfl) (by rfl)).2.2⟩

/-- C8 counterexample: a dump directory whose metadata file carries the
wrong format version (999 where the dump writes 0) is decoded without
error — the format-version field is never checked — and the restore
proceeds: DoRestore issues the extension drop/create DDL and finishes
without failing during metadata decode. -/
theorem c8_wrong_format_version_not_rejected_cex :
    parseInfoFile c8Env.infoFile = Except.ok ⟨999, "2.1.0", "public"⟩ ∧
    (DoRestore c8Env).2.preRestoreInvoked = true ∧
    (DoRestore c8Env).1 = none := by
  exact ⟨rfl, rfl, rfl⟩

/-- C8 (amended): a metadata file that fails to decode (open failure,
malformed JSON, or a field of the wrong JSON type) makes DoRestore fail
during metadata decode, before any DDL is issued against the target
database (no extension drop/create, no hook call, no restore pass); the
metadata format-version field itself is never validated, so a
well-formed file with any format-version value decodes successfully. -/
theorem c8_decode_failure_precedes_ddl (env : RestoreEnv) (e : String)
    (h : parseInfoFile env.infoFile = Except.error e) :
    DoRestore env = (some e, ⟨false, false, [], none⟩) ∧
    (∀ (n : Int) (v s : String),
      decodeTsInfo (JValue.jobj
        [("TsInfoVersion", JValue.jint n),
         ("TsVersion", JValue.jstr v),
         ("TsSchema", JValue.jstr s)]) = Except.ok ⟨n, v, s⟩) := by
  constructor
  · simp only [DoRestore, h]
  · intro n v s
    rfl

/-- C8 witness: the amended claim at a run whose metadata file holds
malformed JSON. -/
theorem c8_decode_failure_precedes_ddl_witness :
    DoRestore c8BadFileEnv
      = (some "failed to decode tsInfo JSON: unexpected end of JSON input",
         ⟨false, false, [], none⟩) ∧
    decodeTsInfo (JValue.jobj
      [("TsInfoVersion", JValue.jint 5),
       ("TsVersion", JValue.jstr "1.7.4"),
       ("TsSchema", JValue.jstr "public")]) = Except.ok ⟨5, "1.7.4", "public"⟩ :=
  ⟨(c8_decode_failure_precedes_ddl c8BadFileEnv
      "failed to decode tsInfo JSON: unexpected end of JSON input" (by rfl)).1,
   (c8_decode_failure_precedes_ddl c8BadFileEnv
      "failed to decode tsInfo JSON: unexpected end of JSON input" (by rfl)).2
      5 "1.7.4" "public"⟩

/-- C7: in DoDump the statement `tsInfo, err := getTimescaleInfo(cf.DbURI)`
is followed immediately by `err = encoder.Encode(&tsInfo)`, so the
query's error is never checked.  On a database without the TimescaleDB
extension, getTimescaleInfo does return an error, yet DoDump succeeds,
writes the zero-valued TsInfo (version "", schema "") to the metadata
file and runs pg_dumpall and pg_dump to completion — contradicting the
design that connectivity/introspection failures at dump time are fatal
and that the recorded metadata reflects the live extension. -/
theorem c7_dump_ignores_ts_info_query_failure :
    (getTimescaleInfo c7Env.tsConnectErr c7Env.tsQuery).2
      = some "TimescaleDB extension not found, make sure it is installed in the database being dumped" ∧
    DoDump c7Env = (none, ⟨some TsInfo.zero, ["roles", "tablespaces"], true⟩) := by
  exact ⟨rfl, rfl⟩

/-- C10: when the configured dump directory already exists on disk,
`os.Mkdir` fails, createInfoFile propagates that failure, and DoDump
returns the wrapped dump-file-creation error with nothing written: no
metadata file, no pg_dumpall invocation, no pg_dump run — the
pre-existing directory's contents are untouched (the trace fields are
all of DoDump's writes into the directory). -/
theorem c10_existing_dump_dir_aborts_before_work (env : DumpEnv) (p v : String)
    (hlp : env.lookPgDump = Except.ok p) (hver : env.pgDumpVersion = Except.ok v)
    (hex : env.dumpDirExists = true) :
    DoDump env
      = (some "error with dump file creation: mkdir: file exists", ⟨none, [], false⟩) := by
  have hc : createInfoFile env = Except.error "mkdir: file exists" := by
    rw [createInfoFile, if_pos hex]
  simp only [DoDump, hlp, hver, hc]
  rfl

/-- C10 witness: the claim at a concrete run whose dump directory
already exists. -/
theorem c10_existing_dump_dir_aborts_before_work_witness :
    DoDump { baseDumpEnv with dumpDirExists := true }
      = (some "error with dump file creation: mkdir: file exists", ⟨none, [], false⟩) :=
  c10_existing_dump_dir_aborts_before_work { baseDumpEnv with dumpDirExists := true }
    "/usr/bin/pg_dump" "pg_dump (PostgreSQL) 12.4" rfl rfl rfl
